import Mathlib

/-!
Verification of the consistency-check engine of `backends/checker.py`.

The file shallowly embeds the data model (Repository / Collection / Cls /
Database / BaseEntry), the seven check tables with their `populate` methods,
and the text renderer `print_table`.  Python dicts are embedded as ordered
association lists, filesystem access (`exists` / `listdir`) as a parameter
`fs : String → Option (List String)` where `none` means the path does not
exist, and the external license validator `license.check_license` as a
function parameter.  A `populate` that can raise (KeyError on a missing
backend name, NameError on an unbound loop variable) returns an `Option`,
with `none` for the raised exception.
-/

namespace Checker

/-- Parameter set of a class; the checks only inspect the `common` sub-group
(`cl.parameters.common`). -/
structure Parameters where
  common : List String
deriving DecidableEq

/-- One part class: `cl.id`, `cl.standard`, `cl.parameters`. -/
structure Cls where
  id : String
  standard : String
  parameters : Parameters
deriving DecidableEq

/-- A collection: `coll.id`, its classes (in `classes_by_ids()` order),
license metadata and the author list. -/
structure Collection where
  id : String
  classes : List Cls
  license_name : String
  license_url : String
  authors : List String
deriving DecidableEq

/-- `coll.classes_by_ids()`: the collection's classes, ids unique within the
collection. -/
def Collection.classes_by_ids (c : Collection) : List Cls := c.classes

/-- A base entry of a backend database: `filename`, license metadata, the
class ids it mentions, and the optional derived artifacts `get_svg()` /
`get_png()` (`none` means not generated). -/
structure BaseEntry where
  filename : String
  license_name : String
  license_url : String
  classids : List String
  svg : Option String
  png : Option String
deriving DecidableEq

/-- A backend database: its `getbase` dict (class id → BaseEntry), embedded
as an ordered association list with unique keys. -/
structure Database where
  getbase : List (String × BaseEntry)
deriving DecidableEq

/-- Dict lookup `db.getbase[clid]` (first matching key). -/
def Database.find? (d : Database) (clid : String) : Option BaseEntry :=
  (d.getbase.find? (fun p => p.1 == clid)).map (fun p => p.2)

/-- Dict key membership `clid in db.getbase`. -/
def Database.contains (d : Database) (clid : String) : Bool :=
  (d.find? clid).isSome

/-- The repository: root `path` and the ordered `collections`. -/
structure Repository where
  path : String
  collections : List Collection
deriving DecidableEq

/-- The database set handed to the engine: a dict backend-name → Database,
embedded as an ordered association list. -/
abbrev Databases : Type := List (String × Database)

/-- Dict lookup `dbs[name]` on the database set. -/
def findDb (dbs : Databases) (name : String) : Option Database :=
  (List.find? (fun p => p.1 == name) dbs).map (fun p => p.2)

/-- Membership in the flat list of pairs of a database set (iteration order of
`for db in dbs`). -/
def Databases.pairs (dbs : Databases) : List (String × Database) := dbs

/-- Python `str` of a bool, as it ends up in a rendered row. -/
def pyBool (b : Bool) : String := if b then "True" else "False"

/-- Python `",".join(l)`. -/
def joinComma (l : List String) : String := String.intercalate "," l

/-- The `ErrorTable` base class: `title`, `description`, accumulated `rows`
and the declared `headers`. -/
structure ErrorTable where
  title : String
  description : String
  rows : List (List String)
  headers : List String
deriving DecidableEq

/-- The base-class `populate`: `pass` (appends nothing). -/
def ErrorTable.populate (t : ErrorTable) (_repo : Repository) (_dbs : Databases) :
    ErrorTable := t

/-! ### MissingBaseTable -/

/-- `MissingBaseTable.__init__`. -/
def MissingBaseTable.init : ErrorTable :=
  { title := "Missing base geometries",
    description := "Some classes can not be used in one or more CAD packages, because no geometry is available.",
    rows := [],
    headers := ["Class id", "Collection", "Standards", "FreeCAD", "OpenSCAD"] }

/-- The rows collected by the loop body of `MissingBaseTable.populate`: the
row holds `[cl.id, coll.id, cl.standard, str(freecad?), str(openscad?)]` and
is appended when `not (row[-1] and row[-2])`, i.e. when the class id is
missing from at least one of the two geometry backends. -/
def missingBaseRows (repo : Repository) (freecadDb openscadDb : Database) :
    List (List String) :=
  repo.collections.flatMap (fun coll =>
    coll.classes_by_ids.filterMap (fun cl =>
      let hasFreecad := freecadDb.contains cl.id
      let hasOpenscad := openscadDb.contains cl.id
      if !(hasOpenscad && hasFreecad) then
        some [cl.id, coll.id, cl.standard, pyBool hasFreecad, pyBool hasOpenscad]
      else none))

/-- `MissingBaseTable.populate`.  `dbs["freecad"]` / `dbs["openscad"]` are
only evaluated once some class is iterated, so a missing backend raises
KeyError (`none`) exactly when the repository has at least one class. -/
def MissingBaseTable.populate (t : ErrorTable) (repo : Repository) (dbs : Databases) :
    Option ErrorTable :=
  if repo.collections.all (fun coll => coll.classes_by_ids.isEmpty) then some t
  else
    match findDb dbs "freecad", findDb dbs "openscad" with
    | some freecadDb, some openscadDb =>
        some { t with rows := t.rows ++ missingBaseRows repo freecadDb openscadDb }
    | _, _ => none

/-! ### UnknownClassTable -/

/-- `UnknownClassTable.__init__` (the outer `ErrorTable.__init__` call; the
`populate` defined *inside* `__init__` only binds a local name and is dead
code). -/
def UnknownClassTable.init : ErrorTable :=
  { title := "Unknown classes",
    description := "Some classes are mentioned in base files, but never defined in blt files.",
    rows := [],
    headers := ["Class id", "Database"] }

/-- The effective `UnknownClassTable.populate`: since the row-collecting
`populate` is nested inside `__init__` (a local function, never stored on the
instance or class), attribute lookup on an `UnknownClassTable` instance finds
the inherited `ErrorTable.populate`, which is `pass`. -/
def UnknownClassTable.populate (t : ErrorTable) (repo : Repository) (dbs : Databases) :
    ErrorTable := ErrorTable.populate t repo dbs

/-- The body of the dead nested `populate` of `UnknownClassTable.__init__`
(what it would collect if it were reachable); unused by
`UnknownClassTable.populate` above, recorded for reference. -/
def UnknownClassTable.deadPopulateRows (repo : Repository) (dbs : Databases) :
    List (List String) :=
  let ids := repo.collections.flatMap (fun coll =>
    coll.classes_by_ids.map (fun cl => cl.id))
  (Databases.pairs dbs).flatMap (fun p =>
    p.2.getbase.flatMap (fun q =>
      q.2.classids.filterMap (fun clid =>
        if clid ∈ ids then none else some [clid, p.1])))

/-! ### MissingCommonParametersTable -/

/-- `MissingCommonParametersTable.__init__`. -/
def MissingCommonParametersTable.init : ErrorTable :=
  { title := "Missing common parameters",
    description := "Some classes have no common parameters defined.",
    rows := [],
    headers := ["Class ID", "Collection", "Standards"] }

/-- The rows collected by `MissingCommonParametersTable.populate`: one row
`[cl.id, coll.id, cl.standard]` per class whose `parameters.common` is empty. -/
def missingCommonParametersRows (repo : Repository) : List (List String) :=
  repo.collections.flatMap (fun coll =>
    (coll.classes_by_ids.filter (fun cl => cl.parameters.common.length == 0)).map
      (fun cl => [cl.id, coll.id, cl.standard]))

/-- `MissingCommonParametersTable.populate` (ignores the database set). -/
def MissingCommonParametersTable.populate (t : ErrorTable) (repo : Repository)
    (_dbs : Databases) : ErrorTable :=
  { t with rows := t.rows ++ missingCommonParametersRows repo }

/-! ### MissingDrawingTable -/

/-- `MissingDrawingTable.__init__`; note the three declared headers. -/
def MissingDrawingTable.init : ErrorTable :=
  { title := "Missing drawings",
    description := "Some classes do not have associated drawings.",
    rows := [],
    headers := ["Class id", "Collection", "Standards"] }

/-- The rows collected by `MissingDrawingTable.populate`: for every class
whose id is not a key of the `"drawings"` database, the two-field row
`[coll.id, cl.standard]` (the class id is never appended). -/
def missingDrawingRows (repo : Repository) (drawingsDb : Database) :
    List (List String) :=
  repo.collections.flatMap (fun coll =>
    (coll.classes_by_ids.filter (fun cl => !(drawingsDb.contains cl.id))).map
      (fun cl => [coll.id, cl.standard]))

/-- `MissingDrawingTable.populate`.  `dbs["drawings"]` is only evaluated once
some class is iterated. -/
def MissingDrawingTable.populate (t : ErrorTable) (repo : Repository) (dbs : Databases) :
    Option ErrorTable :=
  if repo.collections.all (fun coll => coll.classes_by_ids.isEmpty) then some t
  else
    match findDb dbs "drawings" with
    | some drawingsDb =>
        some { t with rows := t.rows ++ missingDrawingRows repo drawingsDb }
    | none => none

/-! ### MissingSVGSourceTable -/

/-- `MissingSVGSourceTable.__init__`. -/
def MissingSVGSourceTable.init : ErrorTable :=
  { title := "Missing svg drawings",
    description := "Some drawings have no svg version.",
    rows := [],
    headers := ["Filename", "Class ID"] }

/-- `MissingSVGSourceTable.populate`: iterates
`dbs["drawings"].getbase.iteritems()` (so a missing `"drawings"` backend
raises immediately) and flags entries whose `get_svg()` is `None`. -/
def MissingSVGSourceTable.populate (t : ErrorTable) (_repo : Repository)
    (dbs : Databases) : Option ErrorTable :=
  match findDb dbs "drawings" with
  | some drawingsDb =>
      some { t with rows := t.rows ++
        drawingsDb.getbase.filterMap (fun p =>
          if p.2.svg = none then some [p.2.filename, p.1] else none) }
  | none => none

/-! ### UnsupportedLicenseTable -/

/-- `UnsupportedLicenseTable.__init__`. -/
def UnsupportedLicenseTable.init : ErrorTable :=
  { title := "Incompatible Licenses",
    description := "Some collections or base geometries have unknown licenses.",
    rows := [],
    headers := ["Type", "Id/Filename", "License name", "License url", "Authors"] }

/-- The rows of the collections loop of `UnsupportedLicenseTable.populate`;
`check_license` is the external `license.check_license` predicate, passed as
a parameter. -/
def unsupportedLicenseCollectionRows (check_license : String → String → Bool)
    (repo : Repository) : List (List String) :=
  repo.collections.filterMap (fun coll =>
    if check_license coll.license_name coll.license_url then none
    else some ["Collection", coll.id, coll.license_name, coll.license_url,
               joinComma coll.authors])

/-- The rows of the bases loop of `UnsupportedLicenseTable.populate`; the
Authors field is always `",".join(coll.authors)` of the leftover loop
variable, i.e. of the last collection the outer loop iterated. -/
def unsupportedLicenseBaseRows (check_license : String → String → Bool)
    (dbs : Databases) (lastColl : Collection) : List (List String) :=
  (Databases.pairs dbs).flatMap (fun p =>
    p.2.getbase.filterMap (fun q =>
      if check_license q.2.license_name q.2.license_url then none
      else some [p.1, q.1, q.2.license_name, q.2.license_url,
                 joinComma lastColl.authors]))

/-- `UnsupportedLicenseTable.populate`.  The collection loop runs first;
afterwards the loop variable `coll` stays bound to the last collection
iterated, and the bases loop reads `coll.authors` from that leftover binding
for every failing BaseEntry.  When the repository has no collections, `coll`
is unbound and the first failing BaseEntry raises a NameError (`none`); when
no BaseEntry fails, `coll` is never read and the run succeeds. -/
def UnsupportedLicenseTable.populate (check_license : String → String → Bool)
    (t : ErrorTable) (repo : Repository) (dbs : Databases) : Option ErrorTable :=
  match repo.collections.getLast? with
  | some lastColl =>
      some { t with rows := t.rows ++ unsupportedLicenseCollectionRows check_license repo ++
        unsupportedLicenseBaseRows check_license dbs lastColl }
  | none =>
      if (Databases.pairs dbs).any (fun p =>
          p.2.getbase.any (fun q =>
            !(check_license q.2.license_name q.2.license_url))) then
        none
      else
        some { t with rows := t.rows ++ unsupportedLicenseCollectionRows check_license repo }

/-! ### Path helpers (`os.path` on posix) -/

/-- Last index of character `c` in `cs` (`str.rfind`), `none` if absent. -/
def rfindChar (cs : List Char) (c : Char) : Option Nat :=
  ((List.range cs.length).filter (fun i => decide (cs.get? i = some c))).getLast?

/-- `os.path.join(a, b)` for posix paths: `b` when `b` is absolute (starts
with a slash), `a ++ b` when `a` is empty or ends with a slash, otherwise
`a ++ "/" ++ b`. -/
def joinPath (a b : String) : String :=
  if b.data.head? = some '/' then b
  else if a = "" ∨ a.data.getLast? = some '/' then a ++ b
  else a ++ "/" ++ b

/-- `os.path.basename(p)` for posix paths: the part after the last slash. -/
def basename (s : String) : String :=
  match rfindChar s.data '/' with
  | none => s
  | some k => String.mk (s.data.drop (k + 1))

/-- `os.path.splitext(p)` for posix paths: split at the last dot, unless every
character between the start of the basename and that dot is itself a dot
(leading dots do not start an extension). -/
def splitext (s : String) : String × String :=
  let cs := s.data
  match rfindChar cs '.' with
  | none => (s, "")
  | some di =>
      let si := match rfindChar cs '/' with
        | none => 0
        | some k => k + 1
      if si ≤ di then
        if (List.range' si (di - si)).any (fun j => decide (¬ cs.get? j = some '.')) then
          (String.mk (cs.take di), String.mk (cs.drop di))
        else (s, "")
      else (s, "")

/-! ### UnknownFileTable -/

/-- `UnknownFileTable.__init__`. -/
def UnknownFileTable.init : ErrorTable :=
  { title := "Stray files",
    description := "Some files are present in the repository, but not mentioned anywhere.",
    rows := [],
    headers := ["Filename", "Path"] }

/-- The guarded removal `if x in files: files.remove(x)` (`list.remove` drops
the first occurrence; removing an absent name would raise, hence the guard). -/
def eraseIfMem (files : List String) (x : String) : List String :=
  if x ∈ files then files.erase x else files

/-- The generic pass's removal loop: for every class of the collection with a
BaseEntry in this backend, remove its `base.filename` from the listing. -/
def removeKnownGeneric (d : Database) : List Cls → List String → List String
  | [], files => files
  | cl :: cls, files =>
      removeKnownGeneric d cls
        (match d.find? cl.id with
         | none => files
         | some base => eraseIfMem files base.filename)

/-- Drawings pass, PNG step: `if not drawing.get_png() is None: if
basename(...) in files: files.remove(basename(...))`. -/
def removePng (drawing : BaseEntry) (files : List String) : List String :=
  match drawing.png with
  | none => files
  | some p => eraseIfMem files (basename p)

/-- Drawings pass, SVG step, run after the PNG step. -/
def removeSvg (drawing : BaseEntry) (files : List String) : List String :=
  match drawing.svg with
  | none => files
  | some s => eraseIfMem files (basename s)

/-- The drawings pass's removal loop: for every class with a drawing entry,
remove the basenames of its PNG and SVG artifacts (when present) from the
listing, PNG first. -/
def removeKnownDrawings (d : Database) : List Cls → List String → List String
  | [], files => files
  | cl :: cls, files =>
      removeKnownDrawings d cls
        (match d.find? cl.id with
         | none => files
         | some drawing => removeSvg drawing (removePng drawing files))

/-- Rows contributed by one backend/collection directory in the generic pass
of `UnknownFileTable.populate`: skip a non-existing directory, subtract the
known base filenames, then flag every leftover file whose extension is not
`".base"`. -/
def strayRowsGeneric (fs : String → Option (List String)) (rpath db : String)
    (d : Database) (coll : Collection) : List (List String) :=
  let path := joinPath (joinPath rpath db) coll.id
  match fs path with
  | none => []
  | some files =>
      (removeKnownGeneric d coll.classes_by_ids files).filterMap (fun filename =>
        if (splitext filename).2 = ".base" then none else some [filename, path])

/-- Rows contributed by one collection directory in the separate drawings pass
of `UnknownFileTable.populate`. -/
def strayRowsDrawings (fs : String → Option (List String)) (rpath : String)
    (d : Database) (coll : Collection) : List (List String) :=
  let path := joinPath (joinPath rpath "drawings") coll.id
  match fs path with
  | none => []
  | some files =>
      (removeKnownDrawings d coll.classes_by_ids files).filterMap (fun filename =>
        if (splitext filename).2 = ".base" then none else some [filename, path])

/-- `UnknownFileTable.populate`: the generic pass over every backend except
`"drawings"`, then the separate drawings pass (run only when `"drawings"` is
in the database set).  `fs` embeds `os.path.exists` + `os.listdir`: `none`
means the path does not exist (the directory is skipped). -/
def UnknownFileTable.populate (fs : String → Option (List String)) (t : ErrorTable)
    (repo : Repository) (dbs : Databases) : ErrorTable :=
  { t with rows := t.rows ++
      (Databases.pairs dbs).flatMap (fun p =>
        if p.1 = "drawings" then []
        else repo.collections.flatMap (fun coll =>
          strayRowsGeneric fs repo.path p.1 p.2 coll)) ++
      (match findDb dbs "drawings" with
       | none => []
       | some d => repo.collections.flatMap (fun coll =>
           strayRowsDrawings fs repo.path d coll)) }

/-! ### The renderer `ErrorTable.print_table` -/

/-- Python `"".join(l)`. -/
def concatAll (l : List String) : String := l.foldl (fun a b => a ++ b) ""

/-- `'-' * n`. -/
def dashes (n : Nat) : String := String.mk (List.replicate n '-')

/-- `"%-*s" % (w, s)`: left-justify `s` in a field of width `w` (no
truncation when `s` is longer). -/
def pyLjust (w : Nat) (s : String) : String :=
  s ++ String.mk (List.replicate (w - s.length) ' ')

/-- One pass of the width loop: `for i in range(len(row)): width[i] =
max(len(str(row[i])), width[i])`. -/
def updateWidth : List Nat → List String → List Nat
  | ws, [] => ws
  | [], _ => []
  | w :: ws, v :: vs => max v.length w :: updateWidth ws vs

/-- The per-column field widths of `print_table`: start from the header label
lengths, fold in every row, then add two. -/
def colWidths (headers : List String) (rows : List (List String)) : List Nat :=
  (rows.foldl updateWidth (headers.map String.length)).map (fun w => w + 2)

/-- The rendered header line: each header left-justified in its column. -/
def headerLine (width : List Nat) (headers : List String) : String :=
  concatAll ((width.zip headers).map (fun p => pyLjust p.1 p.2))

/-- The separator line under the headers. -/
def sepLine (width : List Nat) : String :=
  concatAll (width.map (fun w => dashes w))

/-- One rendered data row: `zip(width, row)` (truncating to the shorter). -/
def rowLine (width : List Nat) (row : List String) : String :=
  concatAll ((width.zip row).map (fun p => pyLjust p.1 p.2))

/-- `ErrorTable.print_table`: empty string for a rowless table, otherwise
title, underline, description, header line, separator line, one line per row
and a trailing blank, joined with newlines. -/
def ErrorTable.print_table (t : ErrorTable) : String :=
  if t.rows.length = 0 then ""
  else
    let width := colWidths t.headers t.rows
    String.intercalate "\n"
      ([t.title, dashes t.title.length ++ "\n", t.description ++ "\n",
        headerLine width t.headers, sepLine width]
       ++ t.rows.map (fun row => rowLine width row) ++ ["\n"])

/-- Column width as the spec phrases it (stated from the spec's words, to be
compared against `colWidths` from the source): the maximum of the header
label length and every cell's string length in that column, plus two.  A row
with no cell in the column contributes nothing (length 0). -/
def specColumnWidth (headers : List String) (rows : List (List String)) (i : Nat) : Nat :=
  (rows.foldl (fun m row => max m (((row[i]?).map String.length).getD 0))
    (((headers[i]?).map String.length).getD 0)) + 2

/-! ### Concrete inputs used by the witnesses -/

/-- Example class with a non-empty common-parameter set. -/
def exClassA : Cls := ⟨"A", "DIN933", ⟨["key"]⟩⟩

/-- Example class with an empty common-parameter set. -/
def exClassB : Cls := ⟨"B", "DIN934", ⟨[]⟩⟩

/-- Example collection holding both classes. -/
def exCollC1 : Collection :=
  ⟨"c1", [exClassA, exClassB], "LGPL 2.1+", "http://l", ["alice"]⟩

/-- A second example collection, iterated last by the collection loops. -/
def exCollC2 : Collection := ⟨"c2", [⟨"C", "DIN961", ⟨["k2"]⟩⟩], "MIT", "http://m", ["bob"]⟩

/-- Example repository with two collections. -/
def exRepo : Repository := ⟨"bolts", [exCollC1, exCollC2]⟩

/-- Example repository with a single collection and class `A` only. -/
def exRepoSingle : Repository := ⟨"bolts", [⟨"c1", [exClassA], "LGPL 2.1+", "http://l", ["alice"]⟩]⟩

/-- Example repository with no collections at all. -/
def exRepoEmpty : Repository := ⟨"bolts", []⟩

/-- Base entry for class `A` in the freecad backend. -/
def exBaseA : BaseEntry := ⟨"a.py", "LGPL 2.1+", "http://l", ["A"], none, none⟩

/-- Freecad backend database holding only class `A`. -/
def exFreecadDb : Database := ⟨[("A", exBaseA)]⟩

/-- Openscad backend database with no entries. -/
def exOpenscadDb : Database := ⟨[]⟩

/-- Drawing entry for class `A` with both artifacts generated. -/
def exDrawingA : BaseEntry :=
  ⟨"a.dxf", "LGPL 2.1+", "http://l", ["A"], some "drw/a.svg", some "drw/a.png"⟩

/-- Drawings backend database holding only class `A`. -/
def exDrawingsDb : Database := ⟨[("A", exDrawingA)]⟩

/-- Example database set with the two geometry backends and the drawings
backend. -/
def exDbs : Databases :=
  [("freecad", exFreecadDb), ("openscad", exOpenscadDb), ("drawings", exDrawingsDb)]

/-- Example database set without the drawings backend. -/
def exDbsGeom : Databases := [("freecad", exFreecadDb), ("openscad", exOpenscadDb)]

/-- A license validator that rejects everything. -/
def exCheckLicenseNone (_name _url : String) : Bool := false

/-- A filesystem with a single existing directory `bolts/freecad/c1` holding
the registered file `a.py`, a sidecar `a.base` and a stray file `stray.txt`. -/
def exFs (p : String) : Option (List String) :=
  if p = "bolts/freecad/c1" then some ["a.py", "a.base", "stray.txt"] else none

/-- A filesystem on which no path exists. -/
def exFsNone (_p : String) : Option (List String) := none

/-- Example table with preexisting rows, for the renderer witness. -/
def exTable : ErrorTable :=
  ⟨"Stray files", "Some files are present.", [["f.txt", "bolts/freecad/c1"]],
    ["Filename", "Path"]⟩

/-! ### Helper lemmas -/

/-- A flatMap over collections vanishes when every collection contributes
nothing. -/
theorem flatMap_nil_of_forall (cols : List Collection)
    (g : Collection → List (List String)) (h : ∀ c ∈ cols, g c = []) :
    cols.flatMap g = [] := by
  induction cols with
  | nil => rfl
  | cons c cs ih =>
      rw [List.flatMap_cons, h c (List.mem_cons_self c cs), List.nil_append]
      exact ih (fun x hx => h x (List.mem_cons_of_mem c hx))

/-- When every collection has an empty class list, the MissingBase row list is
empty. -/
theorem missingBaseRows_eq_nil (repo : Repository) (freecadDb openscadDb : Database)
    (h : repo.collections.all (fun coll => coll.classes_by_ids.isEmpty) = true) :
    missingBaseRows repo freecadDb openscadDb = [] := by
  unfold missingBaseRows
  rw [List.all_eq_true] at h
  apply flatMap_nil_of_forall
  intro c hc
  have hcl : c.classes_by_ids = [] := by
    simpa [List.isEmpty_iff] using h c hc
  rw [hcl]
  rfl

/-- When every collection has an empty class list, the MissingDrawing row list
is empty. -/
theorem missingDrawingRows_eq_nil (repo : Repository) (drawingsDb : Database)
    (h : repo.collections.all (fun coll => coll.classes_by_ids.isEmpty) = true) :
    missingDrawingRows repo drawingsDb = [] := by
  unfold missingDrawingRows
  rw [List.all_eq_true] at h
  apply flatMap_nil_of_forall
  intro c hc
  have hcl : c.classes_by_ids = [] := by
    simpa [List.isEmpty_iff] using h c hc
  rw [hcl]
  rfl

/-- A MissingCommonParameters block contributes no row headed by an id that
does not occur in the class list. -/
theorem count_commonRows_zero_aux (cid : String) (cs : List Cls) (xid : String)
    (collid std : String) (hid : xid ∉ cs.map (fun x => x.id)) :
    ((cs.filter (fun x => x.parameters.common.length == 0)).map
        (fun x => [x.id, cid, x.standard])).count [xid, collid, std] = 0 := by
  rw [List.count_eq_zero]
  intro hmem
  rw [List.mem_map] at hmem
  obtain ⟨x, hx, hrow⟩ := hmem
  have hxid : x.id = xid := by
    have := congrArg (fun l => List.head? l) hrow
    simpa using this
  exact hid (hxid ▸ List.mem_map_of_mem _ (List.mem_of_mem_filter hx))

/-- Counting a class's MissingCommonParameters row inside its own collection
block: one occurrence when its common-parameter set is empty, none otherwise
(given the collection's class ids are unique). -/
theorem count_commonRows_single_aux (cid : String) (cs : List Cls) (cl : Cls)
    (hnd : (cs.map (fun x => x.id)).Nodup) (hcl : cl ∈ cs) :
    ((cs.filter (fun x => x.parameters.common.length == 0)).map
        (fun x => [x.id, cid, x.standard])).count [cl.id, cid, cl.standard] =
      if cl.parameters.common.length = 0 then 1 else 0 := by
  induction cs with
  | nil => exact absurd hcl (List.not_mem_nil cl)
  | cons d ds ih =>
      rw [List.map_cons, List.nodup_cons] at hnd
      rcases List.mem_cons.mp hcl with rfl | hmem
      · rcases hp : (cl.parameters.common.length == 0) with _ | _
        · have hlen : ¬ cl.parameters.common.length = 0 := by
            simpa using hp
          rw [List.filter_cons, hp, if_neg hlen]
          show ((ds.filter (fun x => x.parameters.common.length == 0)).map
            (fun x => [x.id, cid, x.standard])).count [cl.id, cid, cl.standard] = 0
          exact count_commonRows_zero_aux cid ds cl.id cid cl.standard hnd.1
        · have hlen : cl.parameters.common.length = 0 := by
            simpa using hp
          rw [List.filter_cons, hp]
          show (([cl.id, cid, cl.standard] ::
            (ds.filter (fun x => x.parameters.common.length == 0)).map
              (fun x => [x.id, cid, x.standard])).count [cl.id, cid, cl.standard]) = _
          rw [List.count_cons,
            count_commonRows_zero_aux cid ds cl.id cid cl.standard hnd.1, if_pos hlen]
          simp
      · have hne : ¬ ([d.id, cid, d.standard] = [cl.id, cid, cl.standard]) := by
          intro he
          have hid : d.id = cl.id := by
            injection he
          exact hnd.1 (hid ▸ List.mem_map_of_mem _ hmem)
        rcases hp : (d.parameters.common.length == 0) with _ | _
        · rw [List.filter_cons, hp]
          show ((ds.filter (fun x => x.parameters.common.length == 0)).map
            (fun x => [x.id, cid, x.standard])).count [cl.id, cid, cl.standard] = _
          exact ih hnd.2 hmem
        · rw [List.filter_cons, hp]
          show (([d.id, cid, d.standard] ::
            (ds.filter (fun x => x.parameters.common.length == 0)).map
              (fun x => [x.id, cid, x.standard])).count [cl.id, cid, cl.standard]) = _
          rw [List.count_cons, ih hnd.2 hmem]
          have hbeq : ([d.id, cid, d.standard] == [cl.id, cid, cl.standard]) = false :=
            beq_eq_false_iff_ne.mpr hne
          rw [hbeq]
          simp

/-- A class id absent from a whole group of collections never occurs as the
head of any of their MissingCommonParameters rows. -/
theorem count_commonRows_flatMap_zero (cols : List Collection) (xid : String)
    (collid std : String)
    (hid : xid ∉ (cols.flatMap (fun c => c.classes_by_ids)).map (fun x => x.id)) :
    (cols.flatMap (fun c =>
        (c.classes_by_ids.filter (fun x => x.parameters.common.length == 0)).map
          (fun x => [x.id, c.id, x.standard]))).count [xid, collid, std] = 0 := by
  induction cols with
  | nil => rfl
  | cons c cs ih =>
      rw [List.flatMap_cons, List.count_append]
      have hsplit : ((c :: cs).flatMap (fun x => x.classes_by_ids)).map
          (fun x => x.id) =
          c.classes_by_ids.map (fun x => x.id) ++
          (cs.flatMap (fun x => x.classes_by_ids)).map (fun x => x.id) := by
        rw [List.flatMap_cons, List.map_append]
      rw [hsplit] at hid
      rw [List.mem_append] at hid
      push_neg at hid
      rw [count_commonRows_zero_aux c.id c.classes_by_ids xid collid std hid.1,
        ih hid.2]

/-- Counting a class's MissingCommonParameters row across a group of
collections with globally unique class ids. -/
theorem count_commonRows_flatMap (cols : List Collection) (coll : Collection)
    (cl : Cls)
    (hids : ((cols.flatMap (fun c => c.classes_by_ids)).map (fun x => x.id)).Nodup)
    (hcoll : coll ∈ cols) (hcl : cl ∈ coll.classes_by_ids) :
    (cols.flatMap (fun c =>
        (c.classes_by_ids.filter (fun x => x.parameters.common.length == 0)).map
          (fun x => [x.id, c.id, x.standard]))).count [cl.id, coll.id, cl.standard] =
      if cl.parameters.common.length = 0 then 1 else 0 := by
  induction cols with
  | nil => exact absurd hcoll (List.not_mem_nil coll)
  | cons c cs ih =>
      have hsplit : ((c :: cs).flatMap (fun x => x.classes_by_ids)).map
          (fun x => x.id) =
          c.classes_by_ids.map (fun x => x.id) ++
          (cs.flatMap (fun x => x.classes_by_ids)).map (fun x => x.id) := by
        rw [List.flatMap_cons, List.map_append]
      rw [hsplit, List.nodup_append] at hids
      rw [List.flatMap_cons, List.count_append]
      rcases List.mem_cons.mp hcoll with rfl | hmem
      · have hin : cl.id ∈ coll.classes_by_ids.map (fun x => x.id) :=
          List.mem_map_of_mem _ hcl
        have hout : cl.id ∉ (cs.flatMap (fun x => x.classes_by_ids)).map
            (fun x => x.id) := fun hx => hids.2.2 hin hx
        rw [count_commonRows_single_aux coll.id coll.classes_by_ids cl hids.1 hcl,
          count_commonRows_flatMap_zero cs cl.id coll.id cl.standard hout]
        simp
      · have hin : cl.id ∈ (cs.flatMap (fun x => x.classes_by_ids)).map
            (fun x => x.id) :=
          List.mem_map_of_mem _ (List.mem_flatMap.mpr ⟨coll, hmem, hcl⟩)
        have hout : cl.id ∉ c.classes_by_ids.map (fun x => x.id) :=
          fun hx => hids.2.2 hx hin
        rw [count_commonRows_zero_aux c.id c.classes_by_ids cl.id coll.id cl.standard hout,
          ih hids.2.1 hmem]
        simp

/-- The guarded erase `eraseIfMem` yields a sublist of the listing. -/
theorem eraseIfMem_sublist (l : List String) (x : String) :
    (eraseIfMem l x).Sublist l := by
  unfold eraseIfMem
  by_cases hm : x ∈ l
  · rw [if_pos hm]
    exact List.erase_sublist x l
  · rw [if_neg hm]

/-- The guarded erase preserves duplicate-freedom. -/
theorem eraseIfMem_nodup (l : List String) (x : String) (h : l.Nodup) :
    (eraseIfMem l x).Nodup := by
  unfold eraseIfMem
  by_cases hm : x ∈ l
  · rw [if_pos hm]
    exact h.erase x
  · rw [if_neg hm]
    exact h

/-- After the guarded erase, the erased name is gone (on a duplicate-free
listing). -/
theorem not_mem_eraseIfMem (l : List String) (x : String) (h : l.Nodup) :
    x ∉ eraseIfMem l x := by
  unfold eraseIfMem
  by_cases hm : x ∈ l
  · rw [if_pos hm]
    intro hx
    exact ((h.mem_erase_iff).mp hx).1 rfl
  · rw [if_neg hm]
    exact hm

/-- The PNG step yields a sublist. -/
theorem removePng_sublist (b : BaseEntry) (files : List String) :
    (removePng b files).Sublist files := by
  unfold removePng
  cases b.png with
  | none => exact List.Sublist.refl files
  | some p => exact eraseIfMem_sublist files (basename p)

/-- The SVG step yields a sublist. -/
theorem removeSvg_sublist (b : BaseEntry) (files : List String) :
    (removeSvg b files).Sublist files := by
  unfold removeSvg
  cases b.svg with
  | none => exact List.Sublist.refl files
  | some s => exact eraseIfMem_sublist files (basename s)

/-- The PNG step preserves duplicate-freedom. -/
theorem removePng_nodup (b : BaseEntry) (files : List String) (h : files.Nodup) :
    (removePng b files).Nodup := by
  unfold removePng
  cases b.png with
  | none => exact h
  | some p => exact eraseIfMem_nodup files (basename p) h

/-- The SVG step preserves duplicate-freedom. -/
theorem removeSvg_nodup (b : BaseEntry) (files : List String) (h : files.Nodup) :
    (removeSvg b files).Nodup := by
  unfold removeSvg
  cases b.svg with
  | none => exact h
  | some s => exact eraseIfMem_nodup files (basename s) h

/-- Unfolding equation of the generic removal loop. -/
theorem removeKnownGeneric_cons (d : Database) (cl : Cls) (cls : List Cls)
    (files : List String) :
    removeKnownGeneric d (cl :: cls) files =
      removeKnownGeneric d cls
        (match d.find? cl.id with
         | none => files
         | some base => eraseIfMem files base.filename) := rfl

/-- The generic removal loop only removes entries from the listing. -/
theorem removeKnownGeneric_sublist (d : Database) :
    ∀ (cs : List Cls) (files : List String),
      (removeKnownGeneric d cs files).Sublist files := by
  intro cs
  induction cs with
  | nil => intro files; exact List.Sublist.refl files
  | cons cl cls ih =>
      intro files
      rw [removeKnownGeneric_cons]
      cases hf : d.find? cl.id with
      | none => exact ih files
      | some base => exact (ih _).trans (eraseIfMem_sublist files base.filename)

/-- A file surviving the generic removal loop of a duplicate-free listing is
not the registered BaseEntry filename of any class of the collection. -/
theorem not_filename_mem_removeKnownGeneric (d : Database) :
    ∀ (cs : List Cls) (files : List String), files.Nodup →
      ∀ f ∈ removeKnownGeneric d cs files, ∀ cl ∈ cs, ∀ b,
        d.find? cl.id = some b → f ≠ b.filename := by
  intro cs
  induction cs with
  | nil =>
      intro files _ f _ cl hcl
      exact absurd hcl (List.not_mem_nil cl)
  | cons cl0 cls ih =>
      intro files hnd f hf cl hcl b hb
      rw [removeKnownGeneric_cons] at hf
      rcases List.mem_cons.mp hcl with rfl | hmem
      · rw [hb] at hf
        intro he
        subst he
        exact not_mem_eraseIfMem files b.filename hnd
          ((removeKnownGeneric_sublist d cls _).subset hf)
      · cases hf0 : d.find? cl0.id with
        | none =>
            rw [hf0] at hf
            exact ih files hnd f hf cl hmem b hb
        | some b0 =>
            rw [hf0] at hf
            exact ih _ (eraseIfMem_nodup files b0.filename hnd) f hf cl hmem b hb

/-- Unfolding equation of the drawings removal loop. -/
theorem removeKnownDrawings_cons (d : Database) (cl : Cls) (cls : List Cls)
    (files : List String) :
    removeKnownDrawings d (cl :: cls) files =
      removeKnownDrawings d cls
        (match d.find? cl.id with
         | none => files
         | some drawing => removeSvg drawing (removePng drawing files)) := rfl

/-- The drawings removal loop only removes entries from the listing. -/
theorem removeKnownDrawings_sublist (d : Database) :
    ∀ (cs : List Cls) (files : List String),
      (removeKnownDrawings d cs files).Sublist files := by
  intro cs
  induction cs with
  | nil => intro files; exact List.Sublist.refl files
  | cons cl cls ih =>
      intro files
      rw [removeKnownDrawings_cons]
      cases hf : d.find? cl.id with
      | none => exact ih files
      | some b =>
          exact (ih _).trans ((removeSvg_sublist b _).trans (removePng_sublist b files))

/-- A file surviving the drawings removal loop of a duplicate-free listing is
not the PNG or SVG artifact basename of any class of the collection. -/
theorem not_artifact_mem_removeKnownDrawings (d : Database) :
    ∀ (cs : List Cls) (files : List String), files.Nodup →
      ∀ f ∈ removeKnownDrawings d cs files, ∀ cl ∈ cs, ∀ b,
        d.find? cl.id = some b →
        (∀ q, b.png = some q → f ≠ basename q) ∧
        (∀ q, b.svg = some q → f ≠ basename q) := by
  intro cs
  induction cs with
  | nil =>
      intro files _ f _ cl hcl
      exact absurd hcl (List.not_mem_nil cl)
  | cons cl0 cls ih =>
      intro files hnd f hf cl hcl b hb
      rw [removeKnownDrawings_cons] at hf
      rcases List.mem_cons.mp hcl with rfl | hmem
      · rw [hb] at hf
        have hmem2 : f ∈ removeSvg b (removePng b files) :=
          (removeKnownDrawings_sublist d cls _).subset hf
        constructor
        · intro q hq he
          subst he
          have h1 : basename q ∉ removePng b files := by
            unfold removePng
            rw [hq]
            exact not_mem_eraseIfMem files (basename q) hnd
          exact h1 ((removeSvg_sublist b _).subset hmem2)
        · intro q hq he
          subst he
          have h1 : basename q ∉ removeSvg b (removePng b files) := by
            unfold removeSvg
            rw [hq]
            exact not_mem_eraseIfMem _ (basename q) (removePng_nodup b files hnd)
          exact h1 hmem2
      · cases hf0 : d.find? cl0.id with
        | none =>
            rw [hf0] at hf
            exact ih files hnd f hf cl hmem b hb
        | some b0 =>
            rw [hf0] at hf
            exact ih _ (removeSvg_nodup b0 _ (removePng_nodup b0 files hnd)) f hf
              cl hmem b hb

/-- Every row of a generic-pass directory names a non-sidecar file that is
not a registered filename of the collection in that backend. -/
theorem strayRowsGeneric_sound (fs : String → Option (List String))
    (rpath db : String) (d : Database) (coll : Collection)
    (hn : ∀ l, fs (joinPath (joinPath rpath db) coll.id) = some l → l.Nodup)
    (r : List String) (hr : r ∈ strayRowsGeneric fs rpath db d coll) :
    ∃ f, r = [f, joinPath (joinPath rpath db) coll.id] ∧
      (splitext f).2 ≠ ".base" ∧
      ∀ cl ∈ coll.classes_by_ids, ∀ b, d.find? cl.id = some b →
        f ≠ b.filename := by
  simp only [strayRowsGeneric] at hr
  cases hfs : fs (joinPath (joinPath rpath db) coll.id) with
  | none =>
      rw [hfs] at hr
      exact absurd hr (List.not_mem_nil r)
  | some files =>
      rw [hfs] at hr
      replace hr : r ∈ (removeKnownGeneric d coll.classes_by_ids files).filterMap
          (fun filename =>
            if (splitext filename).2 = ".base" then none
            else some [filename, joinPath (joinPath rpath db) coll.id]) := hr
      obtain ⟨f, hfmem, hcond⟩ := List.mem_filterMap.mp hr
      by_cases hext : (splitext f).2 = ".base"
      · rw [if_pos hext] at hcond
        exact absurd hcond (by simp)
      · rw [if_neg hext] at hcond
        have heq := Option.some.inj hcond
        subst heq
        exact ⟨f, rfl, hext, fun cl hcl b hb =>
          not_filename_mem_removeKnownGeneric d coll.classes_by_ids files
            (hn files hfs) f hfmem cl hcl b hb⟩

/-- Every row of a drawings-pass directory names a non-sidecar file that is
not the PNG or SVG artifact basename of any class of the collection. -/
theorem strayRowsDrawings_sound (fs : String → Option (List String))
    (rpath : String) (d : Database) (coll : Collection)
    (hn : ∀ l, fs (joinPath (joinPath rpath "drawings") coll.id) = some l → l.Nodup)
    (r : List String) (hr : r ∈ strayRowsDrawings fs rpath d coll) :
    ∃ f, r = [f, joinPath (joinPath rpath "drawings") coll.id] ∧
      (splitext f).2 ≠ ".base" ∧
      ∀ cl ∈ coll.classes_by_ids, ∀ b, d.find? cl.id = some b →
        (∀ q, b.png = some q → f ≠ basename q) ∧
        (∀ q, b.svg = some q → f ≠ basename q) := by
  simp only [strayRowsDrawings] at hr
  cases hfs : fs (joinPath (joinPath rpath "drawings") coll.id) with
  | none =>
      rw [hfs] at hr
      exact absurd hr (List.not_mem_nil r)
  | some files =>
      rw [hfs] at hr
      replace hr : r ∈ (removeKnownDrawings d coll.classes_by_ids files).filterMap
          (fun filename =>
            if (splitext filename).2 = ".base" then none
            else some [filename, joinPath (joinPath rpath "drawings") coll.id]) := hr
      obtain ⟨f, hfmem, hcond⟩ := List.mem_filterMap.mp hr
      by_cases hext : (splitext f).2 = ".base"
      · rw [if_pos hext] at hcond
        exact absurd hcond (by simp)
      · rw [if_neg hext] at hcond
        have heq := Option.some.inj hcond
        subst heq
        exact ⟨f, rfl, hext, fun cl hcl b hb =>
          not_artifact_mem_removeKnownDrawings d coll.classes_by_ids files
            (hn files hfs) f hfmem cl hcl b hb⟩

/-- Length of a string fold-append. -/
theorem length_foldl_append (l : List String) :
    ∀ init : String, (l.foldl (fun a b => a ++ b) init).length =
      init.length + (l.map String.length).sum := by
  induction l with
  | nil => intro init; simp
  | cons s ss ih =>
      intro init
      rw [List.foldl_cons, ih, String.length_append, List.map_cons, List.sum_cons]
      omega

/-- Length of `"".join`: the sum of the piece lengths. -/
theorem length_concatAll (l : List String) :
    (concatAll l).length = (l.map String.length).sum := by
  unfold concatAll
  rw [length_foldl_append]
  simp

/-- Length of a left-justified field: the field width, unless the value is
longer. -/
theorem pyLjust_length (w : Nat) (s : String) :
    (pyLjust w s).length = max s.length w := by
  unfold pyLjust
  rw [String.length_append]
  have h2 : (String.mk (List.replicate (w - s.length) ' ')).length = w - s.length := by
    rw [String.length_mk]
    exact List.length_replicate _ _
  rw [h2]
  omega

/-- One width-update pass keeps the width list's length. -/
theorem updateWidth_length : ∀ (ws : List Nat) (vs : List String),
    (updateWidth ws vs).length = ws.length := by
  intro ws
  induction ws with
  | nil => intro vs; cases vs <;> rfl
  | cons w ws ih =>
      intro vs
      cases vs with
      | nil => rfl
      | cons v vs => simp [updateWidth, ih vs]

/-- Entry-wise description of one width-update pass. -/
theorem updateWidth_getElem : ∀ (ws : List Nat) (vs : List String) (i : Nat),
    (updateWidth ws vs)[i]? =
      match ws[i]?, vs[i]? with
      | some w, some v => some (max v.length w)
      | some w, none => some w
      | none, _ => none := by
  intro ws
  induction ws with
  | nil =>
      intro vs i
      cases vs <;> simp [updateWidth]
  | cons w ws ih =>
      intro vs i
      cases vs with
      | nil =>
          cases hi : (w :: ws)[i]? <;> simp [updateWidth, hi]
      | cons v vs =>
          cases i with
          | zero => simp [updateWidth]
          | succ n => simpa [updateWidth] using ih vs n

/-- The width fold keeps the width list's length. -/
theorem foldl_updateWidth_length (rows : List (List String)) :
    ∀ init : List Nat, (rows.foldl updateWidth init).length = init.length := by
  induction rows with
  | nil => intro init; rfl
  | cons row rows ih =>
      intro init
      rw [List.foldl_cons, ih, updateWidth_length]

/-- `colWidths` has one width per header. -/
theorem colWidths_length (headers : List String) (rows : List (List String)) :
    (colWidths headers rows).length = headers.length := by
  unfold colWidths
  rw [List.length_map, foldl_updateWidth_length, List.length_map]

/-- Entry-wise description of the whole width fold. -/
theorem foldl_updateWidth_getElem (rows : List (List String)) :
    ∀ (init : List Nat) (i : Nat) (w : Nat), init[i]? = some w →
      (rows.foldl updateWidth init)[i]? =
        some (rows.foldl (fun m row =>
          match row[i]? with
          | some v => max v.length m
          | none => m) w) := by
  induction rows with
  | nil =>
      intro init i w h
      simpa using h
  | cons row rows ih =>
      intro init i w h
      rw [List.foldl_cons, List.foldl_cons]
      apply ih
      rw [updateWidth_getElem, h]
      cases hv : row[i]? <;> rfl

/-- The source's `colWidths` agrees entry-wise with the spec's description of
the column width. -/
theorem colWidths_getElem (headers : List String) (rows : List (List String))
    (i : Nat) (hi : i < headers.length) :
    (colWidths headers rows)[i]? = some (specColumnWidth headers rows i) := by
  obtain ⟨h0, hh0⟩ : ∃ h0, headers[i]? = some h0 :=
    ⟨headers[i], List.getElem?_eq_getElem hi⟩
  have hinit : (headers.map String.length)[i]? = some h0.length := by
    rw [List.getElem?_map, hh0]
    rfl
  unfold colWidths specColumnWidth
  rw [List.getElem?_map, foldl_updateWidth_getElem rows (headers.map String.length)
    i h0.length hinit, Option.map_some']
  rw [hh0]
  have hfold : rows.foldl (fun m row =>
      match row[i]? with
      | some v => max v.length m
      | none => m) h0.length =
    rows.foldl (fun m row => max m (((row[i]?).map String.length).getD 0))
      ((Option.map String.length (some h0)).getD 0) := by
    show _ = rows.foldl _ h0.length
    apply List.foldl_ext
    intro a row _
    cases hv : row[i]?
    · simp
    · simp [Nat.max_comm]
  rw [hfold]

/-- The init value is a lower bound of the max fold. -/
theorem le_foldl_maxcell (rows : List (List String)) (i : Nat) :
    ∀ a : Nat, a ≤ rows.foldl
      (fun m row => max m (((row[i]?).map String.length).getD 0)) a := by
  induction rows with
  | nil => intro a; exact Nat.le_refl a
  | cons row rows ih =>
      intro a
      exact (Nat.le_max_left a _).trans (ih _)

/-- Every row's cell length is a lower bound of the max fold. -/
theorem cell_le_foldl_maxcell (rows : List (List String)) (i : Nat)
    (row : List String) (hrow : row ∈ rows) :
    ∀ a : Nat, (((row[i]?).map String.length).getD 0) ≤ rows.foldl
      (fun m r => max m (((r[i]?).map String.length).getD 0)) a := by
  induction rows with
  | nil => exact absurd hrow (List.not_mem_nil row)
  | cons r rs ih =>
      intro a
      rw [List.foldl_cons]
      rcases List.mem_cons.mp hrow with rfl | hmem
      · exact (Nat.le_max_right a _).trans (le_foldl_maxcell rs i _)
      · exact ih hmem _

/-- Summing left-justified fields over a zip with dominated value lengths
gives the sum of the widths. -/
theorem sum_zip_ljust : ∀ (ws : List Nat) (hs : List String),
    ws.length = hs.length →
    (∀ (i w : Nat) (h2 : String), ws[i]? = some w → hs[i]? = some h2 → h2.length ≤ w) →
    (((ws.zip hs).map (fun p => pyLjust p.1 p.2)).map String.length).sum = ws.sum := by
  intro ws
  induction ws with
  | nil =>
      intro hs _ _
      simp
  | cons w ws ih =>
      intro hs hlen hle
      cases hs with
      | nil => simp at hlen
      | cons h hs =>
          rw [List.zip_cons_cons, List.map_cons, List.map_cons, List.sum_cons,
            List.sum_cons, pyLjust_length]
          have h0 : h.length ≤ w := hle 0 w h (by simp) (by simp)
          rw [Nat.max_eq_right h0]
          congr 1
          apply ih hs (by simpa using hlen)
          intro i w2 h2 hw2 hh2
          exact hle (i + 1) w2 h2 (by simpa using hw2) (by simpa using hh2)

/-- The rendered header line's length is exactly the sum of the padded column
widths. -/
theorem headerLine_length (headers : List String) (rows : List (List String)) :
    (headerLine (colWidths headers rows) headers).length =
      (colWidths headers rows).sum := by
  unfold headerLine
  rw [length_concatAll]
  apply sum_zip_ljust
  · rw [colWidths_length]
  · intro i w h hw hh
    obtain ⟨hi, _⟩ := List.getElem?_eq_some.mp hh
    rw [colWidths_getElem headers rows i hi] at hw
    have hw2 := Option.some.inj hw
    subst hw2
    unfold specColumnWidth
    rw [hh]
    refine le_trans ?_ (Nat.le_add_right _ 2)
    exact le_foldl_maxcell rows i _

/-! ### Claim theorems -/

/-- C2: for every catalog and database set, `populate` on an
`UnknownClassTable` instance is the inherited no-op — the nested row-collecting
`populate` inside `__init__` is dead code — so the table mutates nothing and a
fresh instance's row list stays empty. -/
theorem unknownClass_populate_appends_nothing :
    (∀ (t : ErrorTable) (repo : Repository) (dbs : Databases),
        UnknownClassTable.populate t repo dbs = t) ∧
    (∀ (repo : Repository) (dbs : Databases),
        (UnknownClassTable.populate UnknownClassTable.init repo dbs).rows = []) :=
  ⟨fun _ _ _ => rfl, fun _ _ => rfl⟩

/-- C1 counterexample: class `A` has a BaseEntry in the `"freecad"` backend
(one of the two geometry backends), yet `MissingBaseTable.populate` does
append a row for it (because `A` is absent from `"openscad"`), so a row is
not appended only when the id is absent from both backends. -/
theorem missingBase_cex_one_backend :
    Database.contains exFreecadDb "A" = true ∧
    (MissingBaseTable.populate MissingBaseTable.init exRepoSingle exDbsGeom).map
        ErrorTable.rows =
      some [["A", "c1", "DIN933", "True", "False"]] :=
  ⟨rfl, rfl⟩

/-- C1 amended: with both geometry backends present,
`MissingBaseTable.populate` appends a row for a class exactly when at least
one of the two backends lacks the class id; a class present in both backends'
base maps is never flagged. -/
theorem missingBase_flags_iff_not_both
    (t : ErrorTable) (repo : Repository) (dbs : Databases)
    (freecadDb openscadDb : Database)
    (hf : findDb dbs "freecad" = some freecadDb)
    (ho : findDb dbs "openscad" = some openscadDb) :
    MissingBaseTable.populate t repo dbs =
      some { t with rows := t.rows ++
        repo.collections.flatMap (fun coll =>
          coll.classes_by_ids.filterMap (fun cl =>
            if freecadDb.contains cl.id && openscadDb.contains cl.id then none
            else
              some [cl.id, coll.id, cl.standard, pyBool (freecadDb.contains cl.id),
                    pyBool (openscadDb.contains cl.id)])) } := by
  have hrows : missingBaseRows repo freecadDb openscadDb =
      repo.collections.flatMap (fun coll =>
        coll.classes_by_ids.filterMap (fun cl =>
          if freecadDb.contains cl.id && openscadDb.contains cl.id then none
          else
            some [cl.id, coll.id, cl.standard, pyBool (freecadDb.contains cl.id),
                  pyBool (openscadDb.contains cl.id)])) := by
    unfold missingBaseRows
    congr 1
    funext coll
    congr 1
    funext cl
    cases h1 : freecadDb.contains cl.id <;> cases h2 : openscadDb.contains cl.id <;> simp
  rw [← hrows]
  unfold MissingBaseTable.populate
  rw [hf, ho]
  split
  case isTrue h =>
    rw [missingBaseRows_eq_nil repo freecadDb openscadDb h, List.append_nil]
  case isFalse h => rfl

/-- C1 amended witness: concrete instance with class `A` present in freecad
only — the appended row records `True` for freecad and `False` for openscad. -/
theorem missingBase_flags_iff_not_both_witness :
    MissingBaseTable.populate MissingBaseTable.init exRepoSingle exDbsGeom =
      some { MissingBaseTable.init with rows := MissingBaseTable.init.rows ++
        exRepoSingle.collections.flatMap (fun coll =>
          coll.classes_by_ids.filterMap (fun cl =>
            if exFreecadDb.contains cl.id && exOpenscadDb.contains cl.id then none
            else
              some [cl.id, coll.id, cl.standard, pyBool (exFreecadDb.contains cl.id),
                    pyBool (exOpenscadDb.contains cl.id)])) } :=
  missingBase_flags_iff_not_both MissingBaseTable.init exRepoSingle exDbsGeom
    exFreecadDb exOpenscadDb rfl rfl

/-- C3: with the `"drawings"` backend present, `MissingDrawingTable.populate`
appends, for every class whose id is not a key of the drawings database,
exactly the two-field row `[coll.id, cl.standard]` — the class id is not in
the row — although the declared headers list three columns. -/
theorem missingDrawing_rows_omit_class_id
    (t : ErrorTable) (repo : Repository) (dbs : Databases) (drawingsDb : Database)
    (hd : findDb dbs "drawings" = some drawingsDb) :
    MissingDrawingTable.populate t repo dbs =
      some { t with rows := t.rows ++ missingDrawingRows repo drawingsDb } ∧
    MissingDrawingTable.init.headers = ["Class id", "Collection", "Standards"] ∧
    (∀ coll ∈ repo.collections, ∀ cl ∈ coll.classes_by_ids,
        drawingsDb.contains cl.id = false →
        [coll.id, cl.standard] ∈ missingDrawingRows repo drawingsDb) ∧
    (∀ r ∈ missingDrawingRows repo drawingsDb,
        r.length = 2 ∧ ∃ coll ∈ repo.collections, ∃ cl ∈ coll.classes_by_ids,
          drawingsDb.contains cl.id = false ∧ r = [coll.id, cl.standard]) := by
  refine ⟨?_, rfl, ?_, ?_⟩
  · unfold MissingDrawingTable.populate
    rw [hd]
    split
    case isTrue h =>
      rw [missingDrawingRows_eq_nil repo drawingsDb h, List.append_nil]
    case isFalse h => rfl
  · intro coll hcoll cl hcl hmiss
    unfold missingDrawingRows
    rw [List.mem_flatMap]
    exact ⟨coll, hcoll, List.mem_map_of_mem _
      (List.mem_filter.mpr ⟨hcl, by rw [hmiss]; rfl⟩)⟩
  · intro r hr
    unfold missingDrawingRows at hr
    rw [List.mem_flatMap] at hr
    obtain ⟨coll, hcoll, hr⟩ := hr
    rw [List.mem_map] at hr
    obtain ⟨cl, hcl, rfl⟩ := hr
    rw [List.mem_filter] at hcl
    refine ⟨rfl, coll, hcoll, cl, hcl.1, ?_, rfl⟩
    have := hcl.2
    cases h : drawingsDb.contains cl.id
    · rfl
    · rw [h] at this
      simp at this

/-- C3 witness: in the concrete repository, classes `B` and `C` have no
drawings entry and each contributes its two-field row. -/
theorem missingDrawing_rows_omit_class_id_witness :
    MissingDrawingTable.populate MissingDrawingTable.init exRepo exDbs =
      some { MissingDrawingTable.init with
             rows := (MissingDrawingTable.init.rows ++
               missingDrawingRows exRepo exDrawingsDb) } ∧
    MissingDrawingTable.init.headers = ["Class id", "Collection", "Standards"] ∧
    missingDrawingRows exRepo exDrawingsDb = [["c1", "DIN934"], ["c2", "DIN961"]] := by
  refine ⟨(missingDrawing_rows_omit_class_id MissingDrawingTable.init exRepo exDbs
    exDrawingsDb rfl).1, (missingDrawing_rows_omit_class_id MissingDrawingTable.init
    exRepo exDbs exDrawingsDb rfl).2.1, by decide⟩

/-- C7: with class ids unique across the repository,
`MissingCommonParametersTable.populate` appends exactly one row
`[cl.id, coll.id, cl.standard]` for every class whose common-parameter set is
empty, and no row for a class with a non-empty common-parameter set. -/
theorem missingCommonParameters_flags_exactly_empty
    (repo : Repository) (dbs : Databases) (coll : Collection) (cl : Cls)
    (hids : ((repo.collections.flatMap (fun c => c.classes_by_ids)).map
        (fun x => x.id)).Nodup)
    (hcoll : coll ∈ repo.collections) (hcl : cl ∈ coll.classes_by_ids) :
    ((MissingCommonParametersTable.populate MissingCommonParametersTable.init repo
        dbs).rows).count [cl.id, coll.id, cl.standard] =
      if cl.parameters.common.length = 0 then 1 else 0 := by
  have h1 : (MissingCommonParametersTable.populate MissingCommonParametersTable.init
      repo dbs).rows = missingCommonParametersRows repo := rfl
  rw [h1]
  exact count_commonRows_flatMap repo.collections coll cl hids hcoll hcl

/-- C7 witness: in the concrete repository, class `B` (no common parameters)
is flagged exactly once and class `A` (one common parameter) is not flagged. -/
theorem missingCommonParameters_flags_exactly_empty_witness :
    ((MissingCommonParametersTable.populate MissingCommonParametersTable.init exRepo
        exDbs).rows).count ["B", "c1", "DIN934"] = 1 ∧
    ((MissingCommonParametersTable.populate MissingCommonParametersTable.init exRepo
        exDbs).rows).count ["A", "c1", "DIN933"] = 0 :=
  ⟨by simpa [exClassB, exCollC1] using
      missingCommonParameters_flags_exactly_empty exRepo exDbs exCollC1 exClassB
        (by decide) (by decide) (by decide),
   by simpa [exClassA, exCollC1] using
      missingCommonParameters_flags_exactly_empty exRepo exDbs exCollC1 exClassA
        (by decide) (by decide) (by decide)⟩

/-- C8: running `MissingDrawingTable.populate` twice on a fresh instance
against the same immutable catalog and database set yields the same result,
and the row list follows the Repository's collection order, then the class
order within each collection. -/
theorem missingDrawing_runs_deterministic_ordered
    (repo : Repository) (dbs : Databases) (drawingsDb : Database)
    (hd : findDb dbs "drawings" = some drawingsDb) :
    MissingDrawingTable.populate MissingDrawingTable.init repo dbs =
      MissingDrawingTable.populate MissingDrawingTable.init repo dbs ∧
    (MissingDrawingTable.populate MissingDrawingTable.init repo dbs).map
        ErrorTable.rows =
      some (repo.collections.flatMap (fun coll =>
        (coll.classes_by_ids.filter (fun cl => !(drawingsDb.contains cl.id))).map
          (fun cl => [coll.id, cl.standard]))) := by
  refine ⟨rfl, ?_⟩
  have h1 : repo.collections.flatMap (fun coll =>
      (coll.classes_by_ids.filter (fun cl => !(drawingsDb.contains cl.id))).map
        (fun cl => [coll.id, cl.standard])) = missingDrawingRows repo drawingsDb := rfl
  rw [h1]
  unfold MissingDrawingTable.populate
  rw [hd]
  split
  case isTrue h =>
    rw [missingDrawingRows_eq_nil repo drawingsDb h]
    rfl
  case isFalse h => rfl

/-- C8 witness: two runs on the concrete inputs agree and produce the ordered
row list. -/
theorem missingDrawing_runs_deterministic_ordered_witness :
    (MissingDrawingTable.populate MissingDrawingTable.init exRepo exDbs).map
        ErrorTable.rows =
      some (exRepo.collections.flatMap (fun coll =>
        (coll.classes_by_ids.filter (fun cl => !(exDrawingsDb.contains cl.id))).map
          (fun cl => [coll.id, cl.standard]))) :=
  (missingDrawing_runs_deterministic_ordered exRepo exDbs exDrawingsDb rfl).2

/-- C4: whenever the repository has a last collection and some backend
BaseEntry fails the license validator, the row reported for that entry takes
its Authors field from the leftover collection loop variable — the last
collection iterated — rather than from any collection the entry belongs to. -/
theorem unsupportedLicense_base_rows_use_last_collection_authors
    (check_license : String → String → Bool) (t : ErrorTable) (repo : Repository)
    (dbs : Databases) (lastColl : Collection) (db : String) (d : Database)
    (bid : String) (base : BaseEntry)
    (hlast : repo.collections.getLast? = some lastColl)
    (hdb : (db, d) ∈ Databases.pairs dbs)
    (hbase : (bid, base) ∈ d.getbase)
    (hfail : check_license base.license_name base.license_url = false) :
    (UnsupportedLicenseTable.populate check_license t repo dbs).isSome = true ∧
    [db, bid, base.license_name, base.license_url, joinComma lastColl.authors] ∈
      ((UnsupportedLicenseTable.populate check_license t repo dbs).map
          ErrorTable.rows).getD [] := by
  unfold UnsupportedLicenseTable.populate
  rw [hlast]
  refine ⟨rfl, ?_⟩
  show _ ∈ t.rows ++ unsupportedLicenseCollectionRows check_license repo ++
    unsupportedLicenseBaseRows check_license dbs lastColl
  apply List.mem_append_right
  unfold unsupportedLicenseBaseRows
  rw [List.mem_flatMap]
  refine ⟨(db, d), hdb, ?_⟩
  rw [List.mem_filterMap]
  refine ⟨(bid, base), hbase, ?_⟩
  rw [hfail]
  rfl

/-- C4 witness: the freecad BaseEntry of class `A` (a class of collection
`c1`, whose author is alice) is reported with the Authors field of the last
collection `c2` (bob). -/
theorem unsupportedLicense_base_rows_use_last_collection_authors_witness :
    (UnsupportedLicenseTable.populate exCheckLicenseNone UnsupportedLicenseTable.init
        exRepo exDbs).isSome = true ∧
    ["freecad", "A", exBaseA.license_name, exBaseA.license_url,
        joinComma exCollC2.authors] ∈
      ((UnsupportedLicenseTable.populate exCheckLicenseNone
          UnsupportedLicenseTable.init exRepo exDbs).map ErrorTable.rows).getD [] :=
  unsupportedLicense_base_rows_use_last_collection_authors exCheckLicenseNone
    UnsupportedLicenseTable.init exRepo exDbs exCollC2 "freecad" exFreecadDb "A"
    exBaseA rfl (by decide) (by decide) rfl

/-- C10: with an empty collection list and some backend BaseEntry failing the
validator, `UnsupportedLicenseTable.populate` hits the unbound loop variable
(NameError, modelled as `none`); with at least one collection the run always
succeeds. -/
theorem unsupportedLicense_unbound_loop_variable
    (check_license : String → String → Bool) (t : ErrorTable) (repo : Repository)
    (dbs : Databases) :
    (repo.collections = [] →
      (Databases.pairs dbs).any (fun p => p.2.getbase.any (fun q =>
          !(check_license q.2.license_name q.2.license_url))) = true →
      UnsupportedLicenseTable.populate check_license t repo dbs = none) ∧
    (repo.collections ≠ [] →
      (UnsupportedLicenseTable.populate check_license t repo dbs).isSome = true) := by
  constructor
  · intro hnil hfail
    unfold UnsupportedLicenseTable.populate
    rw [hnil]
    show (if _ = true then _ else _) = _
    rw [hfail]
    rfl
  · intro hne
    obtain ⟨lastColl, hlast⟩ :=
      Option.isSome_iff_exists.mp (List.getLast?_isSome.mpr hne)
    unfold UnsupportedLicenseTable.populate
    rw [hlast]
    rfl

/-- C10 witness: the empty repository with an always-failing validator raises
on the concrete database set, while the two-collection repository succeeds. -/
theorem unsupportedLicense_unbound_loop_variable_witness :
    UnsupportedLicenseTable.populate exCheckLicenseNone UnsupportedLicenseTable.init
        exRepoEmpty exDbs = none ∧
    (UnsupportedLicenseTable.populate exCheckLicenseNone UnsupportedLicenseTable.init
        exRepo exDbs).isSome = true :=
  ⟨(unsupportedLicense_unbound_loop_variable exCheckLicenseNone
      UnsupportedLicenseTable.init exRepoEmpty exDbs).1 rfl (by decide),
   (unsupportedLicense_unbound_loop_variable exCheckLicenseNone
      UnsupportedLicenseTable.init exRepo exDbs).2 (by decide)⟩

/-- C9: a backend/collection directory that does not exist (`fs` yields
`none`, i.e. `os.path.exists` is false) contributes no rows to
`UnknownFileTable.populate` and raises no error — both in the generic pass
and in the drawings pass — and populate's rows are exactly the old rows plus
the per-directory contributions. -/
theorem unknownFile_missing_dir_skipped
    (fs : String → Option (List String)) (rpath db : String) (d : Database)
    (coll : Collection)
    (hgen : fs (joinPath (joinPath rpath db) coll.id) = none)
    (hdrw : fs (joinPath (joinPath rpath "drawings") coll.id) = none) :
    strayRowsGeneric fs rpath db d coll = [] ∧
    strayRowsDrawings fs rpath d coll = [] ∧
    (∀ (t : ErrorTable) (repo : Repository) (dbs : Databases),
      (UnknownFileTable.populate fs t repo dbs).rows = t.rows ++
        (Databases.pairs dbs).flatMap (fun p =>
          if p.1 = "drawings" then []
          else repo.collections.flatMap (fun c2 =>
            strayRowsGeneric fs repo.path p.1 p.2 c2)) ++
        (match findDb dbs "drawings" with
         | none => []
         | some d2 => repo.collections.flatMap (fun c2 =>
             strayRowsDrawings fs repo.path d2 c2))) := by
  refine ⟨?_, ?_, fun t repo dbs => rfl⟩
  · simp only [strayRowsGeneric]
    rw [hgen]
  · simp only [strayRowsDrawings]
    rw [hdrw]

/-- C9 witness: on a filesystem with no existing directory, the concrete
directories contribute nothing and populate leaves the row list unchanged. -/
theorem unknownFile_missing_dir_skipped_witness :
    strayRowsGeneric exFsNone "bolts" "freecad" exFreecadDb exCollC1 = [] ∧
    strayRowsDrawings exFsNone "bolts" exDrawingsDb exCollC1 = [] ∧
    (UnknownFileTable.populate exFsNone exTable exRepo exDbs).rows = exTable.rows := by
  have h := unknownFile_missing_dir_skipped exFsNone "bolts" "freecad" exFreecadDb
    exCollC1 rfl rfl
  refine ⟨h.1, h.2.1, ?_⟩
  rw [h.2.2 exTable exRepo exDbs]
  decide

/-- C6: on duplicate-free directory listings, every row appended by
`UnknownFileTable.populate` names a file whose extension is not the sidecar
extension `".base"`, and comes from some backend/collection directory pass in
which the filename differs from every registered BaseEntry filename of that
collection in that backend (for the drawings pass: from the PNG and SVG
artifact basenames). -/
theorem unknownFile_no_sidecar_no_registered
    (fs : String → Option (List String)) (repo : Repository) (dbs : Databases)
    (t : ErrorTable) (r : List String)
    (hn : ∀ q l, fs q = some l → l.Nodup)
    (hr : r ∈ (UnknownFileTable.populate fs t repo dbs).rows) :
    r ∈ t.rows ∨
    ∃ f p, r = [f, p] ∧ (splitext f).2 ≠ ".base" ∧
      ((∃ db d coll, (db, d) ∈ Databases.pairs dbs ∧ ¬ db = "drawings" ∧
          coll ∈ repo.collections ∧ r ∈ strayRowsGeneric fs repo.path db d coll ∧
          ∀ cl ∈ coll.classes_by_ids, ∀ b, d.find? cl.id = some b →
            f ≠ b.filename) ∨
       (∃ d coll, findDb dbs "drawings" = some d ∧ coll ∈ repo.collections ∧
          r ∈ strayRowsDrawings fs repo.path d coll ∧
          ∀ cl ∈ coll.classes_by_ids, ∀ b, d.find? cl.id = some b →
            (∀ q, b.png = some q → f ≠ basename q) ∧
            (∀ q, b.svg = some q → f ≠ basename q))) := by
  replace hr : r ∈ (t.rows ++
      (Databases.pairs dbs).flatMap (fun p =>
        if p.1 = "drawings" then []
        else repo.collections.flatMap (fun c2 =>
          strayRowsGeneric fs repo.path p.1 p.2 c2))) ++
      (match findDb dbs "drawings" with
       | none => []
       | some d2 => repo.collections.flatMap (fun c2 =>
           strayRowsDrawings fs repo.path d2 c2)) := hr
  rcases List.mem_append.mp hr with hr1 | hr2
  · rcases List.mem_append.mp hr1 with hr0 | hrg
    · exact Or.inl hr0
    · right
      obtain ⟨pr, hdb, hin⟩ := List.mem_flatMap.mp hrg
      by_cases hdd : pr.1 = "drawings"
      · rw [if_pos hdd] at hin
        exact absurd hin (List.not_mem_nil r)
      · rw [if_neg hdd] at hin
        obtain ⟨coll, hcoll, hrow⟩ := List.mem_flatMap.mp hin
        obtain ⟨f, heq, hext, hreg⟩ := strayRowsGeneric_sound fs repo.path pr.1 pr.2
          coll (fun l hl => hn _ l hl) r hrow
        subst heq
        exact ⟨f, joinPath (joinPath repo.path pr.1) coll.id, rfl, hext,
          Or.inl ⟨pr.1, pr.2, coll, hdb, hdd, hcoll, hrow, hreg⟩⟩
  · right
    cases hd : findDb dbs "drawings" with
    | none =>
        rw [hd] at hr2
        exact absurd hr2 (List.not_mem_nil r)
    | some d2 =>
        rw [hd] at hr2
        obtain ⟨coll, hcoll, hrow⟩ := List.mem_flatMap.mp hr2
        obtain ⟨f, heq, hext, hreg⟩ := strayRowsDrawings_sound fs repo.path d2 coll
          (fun l hl => hn _ l hl) r hrow
        subst heq
        exact ⟨f, joinPath (joinPath repo.path "drawings") coll.id, rfl, hext,
          Or.inr ⟨d2, coll, rfl, hcoll, hrow, hreg⟩⟩

/-- C6 witness: on the concrete filesystem, the stray file is flagged, and it
is neither a sidecar nor a registered filename. -/
theorem unknownFile_no_sidecar_no_registered_witness :
    ["stray.txt", "bolts/freecad/c1"] ∈
        (UnknownFileTable.populate exFs UnknownFileTable.init exRepo exDbs).rows ∧
    (splitext "stray.txt").2 ≠ ".base" := by
  refine ⟨by decide, ?_⟩
  have hn : ∀ q l, exFs q = some l → l.Nodup := by
    intro q l h
    unfold exFs at h
    by_cases hq : q = "bolts/freecad/c1"
    · rw [if_pos hq] at h
      cases h
      decide
    · rw [if_neg hq] at h
      cases h
  have h := unknownFile_no_sidecar_no_registered exFs exRepo exDbs
    UnknownFileTable.init ["stray.txt", "bolts/freecad/c1"] hn (by decide)
  rcases h with hold | ⟨f, p, heq, hext, _⟩
  · exact absurd hold (by decide)
  · have hf : "stray.txt" = f := by
      injection heq with h1 h2
    rw [← hf] at hext
    exact hext

/-- C5: `print_table` on a check with zero rows returns the empty string; on
a check with rows, each column width is the maximum of the header label
length and every cell's string length in that column, plus two; the header
line's length equals the sum of these padded widths; and every data row's
cells are padded to exactly the same column widths as the header row's
(`rowLine` is the concatenation of those exact-width fields). -/
theorem print_table_spec (t : ErrorTable) :
    (t.rows = [] → ErrorTable.print_table t = "") ∧
    (t.rows ≠ [] →
      (∀ i, i < t.headers.length →
          (colWidths t.headers t.rows)[i]? =
            some (specColumnWidth t.headers t.rows i)) ∧
      (headerLine (colWidths t.headers t.rows) t.headers).length =
          (colWidths t.headers t.rows).sum ∧
      (∀ row ∈ t.rows, ∀ (j w : Nat) (v : String),
          (colWidths t.headers t.rows)[j]? = some w → row[j]? = some v →
            (pyLjust w v).length = w) ∧
      (∀ row ∈ t.rows,
          rowLine (colWidths t.headers t.rows) row =
            concatAll (((colWidths t.headers t.rows).zip row).map
              (fun p => pyLjust p.1 p.2)))) := by
  constructor
  · intro h
    unfold ErrorTable.print_table
    rw [h]
    rfl
  · intro _
    refine ⟨fun i hi => colWidths_getElem t.headers t.rows i hi,
      headerLine_length t.headers t.rows, ?_, fun row hrow => rfl⟩
    intro row hrow j w v hw hv
    obtain ⟨hj0, _⟩ := List.getElem?_eq_some.mp hw
    rw [colWidths_length] at hj0
    rw [colWidths_getElem t.headers t.rows j hj0] at hw
    have hw2 := Option.some.inj hw
    subst hw2
    rw [pyLjust_length]
    have hcell : (((row[j]?).map String.length).getD 0) = v.length := by
      rw [hv]
      rfl
    have hle2 : v.length ≤ specColumnWidth t.headers t.rows j := by
      unfold specColumnWidth
      refine le_trans ?_ (Nat.le_add_right _ 2)
      have hc := cell_le_foldl_maxcell t.rows j row hrow
        (((t.headers[j]?).map String.length).getD 0)
      rw [hcell] at hc
      exact hc
    exact Nat.max_eq_right hle2

/-- C5 witness: the empty table renders to the empty string; on the concrete
one-row table, column 0's width matches the spec formula, the header line has
the padded total length, and the widest cell is padded to exactly its column
width. -/
theorem print_table_spec_witness :
    ErrorTable.print_table ⟨"T", "D", [], ["H"]⟩ = "" ∧
    (colWidths exTable.headers exTable.rows)[0]? =
        some (specColumnWidth exTable.headers exTable.rows 0) ∧
    (headerLine (colWidths exTable.headers exTable.rows) exTable.headers).length =
        (colWidths exTable.headers exTable.rows).sum ∧
    (pyLjust 18 "bolts/freecad/c1").length = 18 := by
  have hempty := (print_table_spec ⟨"T", "D", [], ["H"]⟩).1 rfl
  have h := (print_table_spec exTable).2 (by decide)
  refine ⟨hempty, h.1 0 (by decide), h.2.1, ?_⟩
  exact h.2.2.1 ["f.txt", "bolts/freecad/c1"] (by decide) 1 18 "bolts/freecad/c1"
    (by decide) (by decide)

end Checker
